import Mathlib

/-!
Shallow embedding of the rate-limited Habitica sync client
(src/habitica-resync/api.ts, src/habitica-resync/util.ts,
src/habitica-resync/types.ts, src/main.ts) and proofs about it.

Host primitives (JS `parseInt`, `Number#toString`, `Date` parsing and
`toISOString`) are modelled by executable Lean functions that agree with the
ECMAScript semantics on every input the embedded code can produce; instants
are epoch milliseconds (`Int`), `NaN` is `Option.none`, an invalid `Date` is
`JSDate.invalid`.
-/

/-- Decimal digit character for `d < 10` (host model of number formatting). -/
def digitChar (d : Nat) : Char :=
  match d with
  | 0 => '0' | 1 => '1' | 2 => '2' | 3 => '3' | 4 => '4'
  | 5 => '5' | 6 => '6' | 7 => '7' | 8 => '8' | 9 => '9'
  | _ => 'X'

/-- Numeric value of a decimal digit character. -/
def digitVal (c : Char) : Nat :=
  match c with
  | '0' => 0 | '1' => 1 | '2' => 2 | '3' => 3 | '4' => 4
  | '5' => 5 | '6' => 6 | '7' => 7 | '8' => 8 | '9' => 9
  | _ => 0

/-- Whether a character is a decimal digit (as JS `parseInt` recognises them). -/
def isDigitCh (c : Char) : Bool :=
  match c with
  | '0' | '1' | '2' | '3' | '4' | '5' | '6' | '7' | '8' | '9' => true
  | _ => false

/-- Fuel-bounded digit extraction; `fuel ≥ n` makes it total on `n`. -/
def digitsRevCore : Nat → Nat → List Char
  | 0, _ => []
  | fuel + 1, n => if n = 0 then [] else digitChar (n % 10) :: digitsRevCore fuel (n / 10)

/-- Decimal digits of `n`, least significant first. -/
def digitsRev (n : Nat) : List Char :=
  digitsRevCore n n

/-- Value of a most-significant-first digit string. -/
def valMSB (l : List Char) : Nat :=
  l.foldl (fun a c => 10 * a + digitVal c) 0

/-- Decimal rendering of a natural number (host model of `Number#toString`). -/
def natChars (n : Nat) : List Char :=
  if n = 0 then ['0'] else (digitsRev n).reverse

/-- Decimal rendering of an integer, as a character list. -/
def intChars (n : Int) : List Char :=
  match n with
  | Int.ofNat m => natChars m
  | Int.negSucc m => '-' :: natChars (m + 1)

/-- Host model of `Number#toString` for integer-valued JS numbers. -/
def intToString (n : Int) : String :=
  ⟨intChars n⟩

/-- Host model of `Number#toString` where `none` models `NaN`. -/
def jsNumToString : Option Int → String
  | none => "NaN"
  | some m => intToString m

/-- Leading run of decimal digits interpreted as a number; `none` when there
is no digit (JS `parseInt` returning `NaN`). -/
def digitsPart (l : List Char) : Option Nat :=
  if l.takeWhile isDigitCh = [] then none else some (valMSB (l.takeWhile isDigitCh))

/-- Sign-and-digits parse applied after leading-space stripping. -/
def parseSigned : List Char → Option Int
  | [] => none
  | c :: r =>
    if c = '-' then (digitsPart r).map (fun v => -(v : Int))
    else if c = '+' then (digitsPart r).map (fun v => (v : Int))
    else (digitsPart (c :: r)).map (fun v => (v : Int))

/-- Host model of JS `parseInt(s)` (radix 10, leading spaces, optional sign,
longest digit run, `NaN` as `none`). -/
def parseIntChars (l : List Char) : Option Int :=
  parseSigned (l.dropWhile (fun c => c = ' '))

/-- Host model of JS `parseInt` on strings. -/
def parseIntJS (s : String) : Option Int :=
  parseIntChars s.data

/-- Strict integer parse of an entire character list (used by the `Date`
model, where only a full ISO round trip yields a valid date). -/
def parseIntAll : List Char → Option Int
  | [] => none
  | c :: r =>
    if c = '-' then (if r ≠ [] ∧ r.all isDigitCh then some (-(valMSB r : Int)) else none)
    else (if (c :: r).all isDigitCh then some ((valMSB (c :: r) : Int)) else none)

/-- JS `Date` value: either an invalid date or a valid instant in epoch
milliseconds. -/
inductive JSDate where
  | invalid
  | valid (ms : Int)
deriving DecidableEq, Repr

/-- Host model of `Date#toISOString` for a valid instant: an injective
serialization that `parseDateJS` inverts, standing in for the concrete ISO
format. -/
def dateToISO (ms : Int) : String :=
  ⟨'I' :: 'S' :: 'O' :: ':' :: intChars ms⟩

/-- Host model of `new Date(string)`: inverts `dateToISO` exactly and maps
every other string to an invalid date. -/
def parseDateJS (s : String) : JSDate :=
  match s.data with
  | 'I' :: 'S' :: 'O' :: ':' :: rest =>
    match parseIntAll rest with
    | some n => JSDate.valid n
    | none => JSDate.invalid
  | _ => JSDate.invalid

/-- JS `a || b` where `a` is a `string | null` operand (`null` and the empty
string are falsy). -/
def jsOr : Option String → String → String
  | none, b => b
  | some s, b => if s = "" then b else s

/-- Embeds `response.headers.get(name)` over a header association list
(api.ts reads two fixed header names). -/
def headersGet (hs : List (String × String)) (k : String) : Option String :=
  (hs.find? (fun p => decide (p.1 = k))).map (fun p => p.2)

/-- JS number for the priority pipeline: `NaN`, the two infinities, or a
finite value (Math.min/max/round are exact on finite values, so ℚ is a
faithful carrier for them). -/
inductive JSNum where
  | nan
  | posInf
  | negInf
  | fin (q : ℚ)
deriving DecidableEq, Repr

/-- Host model of `Math.min` (NaN-propagating). -/
def jsMin (a b : JSNum) : JSNum :=
  match a, b with
  | JSNum.nan, _ => JSNum.nan
  | _, JSNum.nan => JSNum.nan
  | JSNum.negInf, _ => JSNum.negInf
  | _, JSNum.negInf => JSNum.negInf
  | JSNum.posInf, b => b
  | a, JSNum.posInf => a
  | JSNum.fin x, JSNum.fin y => JSNum.fin (min x y)

/-- Host model of `Math.max` (NaN-propagating). -/
def jsMax (a b : JSNum) : JSNum :=
  match a, b with
  | JSNum.nan, _ => JSNum.nan
  | _, JSNum.nan => JSNum.nan
  | JSNum.posInf, _ => JSNum.posInf
  | _, JSNum.posInf => JSNum.posInf
  | JSNum.negInf, b => b
  | a, JSNum.negInf => a
  | JSNum.fin x, JSNum.fin y => JSNum.fin (max x y)

/-- Host model of `Math.round`: half-up rounding on finite values, identity
on infinities, NaN on NaN. -/
def jsRound (a : JSNum) : JSNum :=
  match a with
  | JSNum.nan => JSNum.nan
  | JSNum.posInf => JSNum.posInf
  | JSNum.negInf => JSNum.negInf
  | JSNum.fin q => JSNum.fin ((⌊q + 1/2⌋ : ℤ) : ℚ)

/-- Embeds `TASK_PRIORITIES` (util.ts 133-138). -/
def TASK_PRIORITIES : List String := ["⏬", "🔽", "🔼", "⏫"]

/-- JS array indexing `TASK_PRIORITIES[x] || ''`: a non-integral, negative,
out-of-range or non-finite index reads `undefined`, which the `||` turns
into the empty string. -/
def glyphAt (a : JSNum) : String :=
  match a with
  | JSNum.fin q =>
    if q.den = 1 ∧ 0 ≤ q.num then TASK_PRIORITIES.getD q.num.toNat "" else ""
  | _ => ""

/-- Embeds `priorityToEmoji` (util.ts 141-144):
`TASK_PRIORITIES[Math.round(Math.max(0, Math.min(3, priority)))] || ''`. -/
def priorityToEmoji (priority : JSNum) : String :=
  glyphAt (jsRound (jsMax (JSNum.fin 0) (jsMin (JSNum.fin 3) priority)))

/-- Checklist entry of a task (types.ts `checklist`). -/
structure ChecklistItem where
  completed : Bool
  id : String
  text : String
deriving DecidableEq, Repr

/-- Embeds the fields of `HabiticaTask` (types.ts 15-64) that the verified
code reads. `date` is the parsed instant of a truthy `date` field (`none`
models an absent or falsy value); `nextDue` holds the parsed instants of the
`nextDue` string list (`[]` models an absent list). -/
structure HabiticaTask where
  type : String
  date : Option Int
  nextDue : List Int
  completed : Bool
  priority : JSNum
  text : String
  checklist : List ChecklistItem
deriving DecidableEq, Repr

/-- Embeds the fields of `HabiticaTasksSettings` (types.ts 2-12) that the
verified code reads; `globalTaskTag` is optional. -/
structure HabiticaTasksSettings where
  indentString : String
  globalTaskTag : Option String
  rateLimitBuffer : Int
deriving DecidableEq, Repr

/-- Embeds `TASK_TYPES` (types.ts 66), which is also the key insertion order
of the task-map literal in `organizeHabiticaTasksByType`. -/
def TASK_TYPES : List String := ["habit", "daily", "todo", "reward", "completedTodo"]

/-- Embeds `EXCLUDED_TASK_TYPES` (types.ts 72). -/
def EXCLUDED_TASK_TYPES : List String := ["completedTodo", "reward"]

/-- Embeds `HabiticaTaskMap` (types.ts 69-71): one ordered list per known
category. -/
structure HabiticaTaskMap where
  habit : List HabiticaTask
  daily : List HabiticaTask
  todo : List HabiticaTask
  reward : List HabiticaTask
  completedTodo : List HabiticaTask
deriving DecidableEq, Repr

/-- The task-map literal of `organizeHabiticaTasksByType` (util.ts 66-72). -/
def emptyTaskMap : HabiticaTaskMap := ⟨[], [], [], [], []⟩

/-- Dynamic key lookup `taskMap[key]` for the five known keys (an unknown
key reads no list; the source guards lookups with `key in taskMap`). -/
def mapGet (m : HabiticaTaskMap) (ty : String) : List HabiticaTask :=
  if ty = "habit" then m.habit
  else if ty = "daily" then m.daily
  else if ty = "todo" then m.todo
  else if ty = "reward" then m.reward
  else if ty = "completedTodo" then m.completedTodo
  else []

/-- Dynamic key update `taskMap[key] = list` for the five known keys. -/
def mapSet (m : HabiticaTaskMap) (ty : String) (l : List HabiticaTask) : HabiticaTaskMap :=
  if ty = "habit" then { m with habit := l }
  else if ty = "daily" then { m with daily := l }
  else if ty = "todo" then { m with todo := l }
  else if ty = "reward" then { m with reward := l }
  else if ty = "completedTodo" then { m with completedTodo := l }
  else m

/-- Property names a plain object literal inherits from
`Object.prototype`, the properties the JS `in` operator finds on `taskMap`
beyond its five own keys (`__proto__` is the `Object.prototype` accessor).
Reading any of them yields a function (or, for `__proto__`, an object)
without a `push` method. -/
def OBJECT_PROTOTYPE_KEYS : List String :=
  ["constructor", "hasOwnProperty", "isPrototypeOf", "propertyIsEnumerable",
   "toLocaleString", "toString", "valueOf", "__proto__",
   "__defineGetter__", "__defineSetter__", "__lookupGetter__", "__lookupSetter__"]

/-- One iteration of the loop in `organizeHabiticaTasksByType` (util.ts
73-79): `if (task.type in taskMap) taskMap[task.type].push(task); else
warn(...)`. JS `in` finds the five own keys and the properties inherited
from `Object.prototype`: an own key appends to that key's list; an
inherited name passes the guard but `taskMap[task.type].push` is not a
function, so the statement throws a TypeError; any other category falls to
the `else`, which warns and drops the task. -/
def pushTask (m : HabiticaTaskMap) (t : HabiticaTask) : Except String HabiticaTaskMap :=
  if t.type ∈ TASK_TYPES then Except.ok (mapSet m t.type (mapGet m t.type ++ [t]))
  else if t.type ∈ OBJECT_PROTOTYPE_KEYS then
    Except.error "TypeError: taskMap[task.type].push is not a function"
  else Except.ok m

/-- Value `pushTask` produces on its non-throwing branches (own key:
append; unknown non-inherited category: unchanged map). -/
def pushTaskFn (m : HabiticaTaskMap) (t : HabiticaTask) : HabiticaTaskMap :=
  if t.type ∈ TASK_TYPES then mapSet m t.type (mapGet m t.type ++ [t]) else m

/-- The `for (const task of tasks)` loop of `organizeHabiticaTasksByType`:
a thrown TypeError aborts the loop and propagates. -/
def organizeLoop : HabiticaTaskMap → List HabiticaTask → Except String HabiticaTaskMap
  | m, [] => Except.ok m
  | m, t :: ts =>
    match pushTask m t with
    | Except.ok m2 => organizeLoop m2 ts
    | Except.error e => Except.error e

/-- Embeds `organizeHabiticaTasksByType` (util.ts 65-81); the result is the
task map, or the TypeError thrown when a task's category names an inherited
`Object.prototype` property. -/
def organizeHabiticaTasksByType (tasks : List HabiticaTask) : Except String HabiticaTaskMap :=
  organizeLoop emptyTaskMap tasks

/-- Number of dropped tasks: those whose category is not a key of the map. -/
def droppedCount (tasks : List HabiticaTask) : Nat :=
  (tasks.filter (fun t => decide (t.type ∉ TASK_TYPES))).length

/-- Total number of tasks stored across the five category lists. -/
def totalLen (m : HabiticaTaskMap) : Nat :=
  m.habit.length + m.daily.length + m.todo.length + m.reward.length + m.completedTodo.length

/-- Day index of an instant, UTC: host model of
`new Date(ms).toISOString().split('T')[0]` up to the injective rendering of
a day as its day number (86400000 ms per day). -/
def dayStr (ms : Int) : String :=
  intToString (Int.fdiv ms 86400000)

/-- The `reduce` in `taskDueDate` (util.ts 125-127): minimum of the parsed
`nextDue` instants, seeded with `nextDue[0]`. -/
def earliestDue (l : List Int) : Int :=
  l.foldl (fun earliest current => if current < earliest then current else earliest) (l.headD 0)

/-- Embeds `taskDueDate` (util.ts 116-131): daily tasks display today; a
todo with a truthy `date` displays that date; otherwise any task with a
non-empty `nextDue` displays the earliest entry; otherwise no date. -/
def taskDueDate (now : Int) (task : HabiticaTask) : String :=
  if task.type = "daily" then "📅 " ++ dayStr now
  else if task.type = "todo" ∧ task.date.isSome then "📅 " ++ dayStr (task.date.getD 0)
  else if task.nextDue ≠ [] then "📅 " ++ dayStr (earliestDue task.nextDue)
  else ""

/-- Host model of `String#trim` for the strings built here (the only
whitespace the renderer can produce at the ends is the space character). -/
def jsTrim (s : String) : String :=
  ⟨((s.data.dropWhile (fun c => c = ' ')).reverse.dropWhile (fun c => c = ' ')).reverse⟩

/-- Embeds `emojiPartForTask` (util.ts 151-157). -/
def emojiPartForTask (now : Int) (task : HabiticaTask) (_settings : HabiticaTasksSettings) : String :=
  jsTrim (priorityToEmoji task.priority ++ " " ++ taskDueDate now task)

/-- Embeds `checklistLinesForTask` (util.ts 84-96); an absent checklist is
the empty list, for which the source's early return and the map agree. -/
def checklistLinesForTask (task : HabiticaTask) (settings : HabiticaTasksSettings) : List String :=
  task.checklist.map (fun item =>
    settings.indentString ++ (if item.completed then "- [x]" else "- [ ]") ++ " " ++ item.text)

/-- Embeds `primaryLineForTask` (util.ts 166-171); `globalTaskTag` is used
through JS truthiness (absent or empty gives the empty token). -/
def primaryLineForTask (now : Int) (task : HabiticaTask) (settings : HabiticaTasksSettings) : String :=
  (if task.completed then "- [x]" else "- [ ]") ++ " " ++
    (jsOr settings.globalTaskTag "") ++ " " ++ task.text ++ " " ++
    emojiPartForTask now task settings

/-- Embeds `taskToNoteLines` (util.ts 179-181). -/
def taskToNoteLines (now : Int) (task : HabiticaTask) (settings : HabiticaTasksSettings) : String :=
  String.intercalate "\n" (primaryLineForTask now task settings :: checklistLinesForTask task settings)

/-- Embeds the write loop of `createHabiticaNotes` (main.ts 626-644) as the
list of storage writes it performs, in `Object.entries` (insertion) order:
for each category, skip it when its list is empty or the category is
excluded, else write `<category>.md` with the rendered tasks joined by the
fixed separator — `vault.create` and `vault.modify` both set the artifact's
complete contents, so a write is a `(path, contents)` pair. -/
def createHabiticaNotesWrites (now : Int) (settings : HabiticaTasksSettings)
    (taskMap : HabiticaTaskMap) : List (String × String) :=
  TASK_TYPES.filterMap (fun ty =>
    if (mapGet taskMap ty).length = 0 ∨ ty ∈ EXCLUDED_TASK_TYPES then none
    else some (ty ++ ".md", String.intercalate "\n\n---\n\n"
      ((mapGet taskMap ty).map (fun t => taskToNoteLines now t settings))))

/-- Embeds `createHabiticaNotes` from the fetched task list on: the awaited
`retrieveAllTasks` classifies the tasks (a thrown TypeError propagates and
nothing is written), and only a successful task map reaches the write
loop. -/
def createHabiticaNotesRun (now : Int) (settings : HabiticaTasksSettings)
    (tasks : List HabiticaTask) : Except String (List (String × String)) :=
  match organizeHabiticaTasksByType tasks with
  | Except.error e => Except.error e
  | Except.ok taskMap => Except.ok (createHabiticaNotesWrites now settings taskMap)

/-- Mutable client state read and written by the rate-limit code (api.ts
13-15): `remainingRequests` (a JS number, `none` models `NaN`) and
`nextResetTime` (`none` models the initial `null`). -/
structure ApiState where
  remainingRequests : Option Int
  nextResetTime : Option JSDate
deriving DecidableEq, Repr

/-- Outcome of one pass through `callWhenRateLimitAllows` (api.ts 141-161):
either the gate awaits the request now, or it arms a timer and re-enters
itself when the timer fires. -/
inductive GateAction where
  | invokeNow
  | reenterAt (t : Int)
deriving DecidableEq, Repr

/-- One pass of `callWhenRateLimitAllows` (api.ts 141-161) at time `now`:
`remainingRequests > 0` (false for `NaN`) invokes immediately; else a
non-null future reset time arms `setTimeout(…, waitTime + rateLimitBuffer)`,
whose callback re-enters the gate at `now + (reset - now) + buffer`; a
`Date` object is always truthy, but the `>` comparison is false for an
invalid date, so both `null` and an invalid or past reset invoke
immediately. -/
def callWhenRateLimitAllowsStep (s : ApiState) (buffer now : Int) : GateAction :=
  if (match s.remainingRequests with | some n => decide (0 < n) | none => false : Bool) then
    GateAction.invokeNow
  else
    match s.nextResetTime with
    | some (JSDate.valid r) =>
      if now < r then GateAction.reenterAt (now + (r - now) + buffer)
      else GateAction.invokeNow
    | _ => GateAction.invokeNow

/-- Time at which the gate awaits the request when the client state does not
change between re-entries (the single-caller scenario of the spec's quota
properties); `fuel` bounds the number of re-entries. -/
def gateInvokeTime (s : ApiState) (buffer : Int) : Nat → Int → Option Int
  | 0, _ => none
  | fuel + 1, now =>
    match callWhenRateLimitAllowsStep s buffer now with
    | GateAction.invokeNow => some now
    | GateAction.reenterAt t => gateInvokeTime s buffer fuel t

/-- Observable events of one `retrieveTasks` call (api.ts 193-213). -/
inductive FetchEv where
  | fetchStarted (t : Int)
  | gateAwaited (t : Int)
deriving DecidableEq, Repr

/-- Embeds the ordering of effects in `retrieveTasks` (api.ts 193-213): the
argument of `callWhenRateLimitAllows` is the value of the expression
`fetch(url, …)`, and evaluating it starts the network request at call time,
before the gate runs; the gate then awaits that same promise at
`gateInvokeTime`. -/
def retrieveTasksEvents (s : ApiState) (buffer now : Int) (fuel : Nat) : List FetchEv :=
  FetchEv.fetchStarted now ::
    (match gateInvokeTime s buffer fuel now with
     | some t => [FetchEv.gateAwaited t]
     | none => [])

/-- The fetch `Response` together with its decoded body as `_handleResponse`
observes it (api.ts 169-184): rate-limit headers, HTTP status, and the
body's application-level `success` flag and task payload. -/
structure JsResponse where
  headers : List (String × String)
  ok : Bool
  status : Nat
  success : Bool
  data : List HabiticaTask
deriving DecidableEq, Repr

/-- The fallback chain `this.nextResetTime?.toISOString() || new
Date().toISOString()` (api.ts 172): a null previous value falls through to
the current instant, a valid previous value re-parses its own ISO string,
and an invalid previous value makes `toISOString` throw a `RangeError`. -/
def resetFallback : Option JSDate → Int → Except String JSDate
  | some JSDate.invalid, _ => Except.error "RangeError: Invalid time value"
  | some (JSDate.valid r), _ => Except.ok (parseDateJS (dateToISO r))
  | none, now => Except.ok (parseDateJS (dateToISO now))

/-- The full expression `new Date(header || this.nextResetTime?.toISOString()
|| new Date().toISOString())` (api.ts 172); `||` short-circuits, so a truthy
header never evaluates the fallback. -/
def resetChain : Option String → Option JSDate → Int → Except String JSDate
  | some s, prev, now => if s = "" then resetFallback prev now else Except.ok (parseDateJS s)
  | none, prev, now => resetFallback prev now

/-- Embeds `_handleResponse` (api.ts 169-184): first assign
`remainingRequests` from `parseInt(header || remainingRequests.toString() ||
'30')` and `nextResetTime` from the reset chain, then throw on a non-ok
status, then throw on `success === false`, else return the decoded body's
data. The returned pair is the state after the call (mutations survive a
throw) and the call's outcome. -/
def handleResponse (st : ApiState) (r : JsResponse) (now : Int) :
    ApiState × Except String (List HabiticaTask) :=
  let rem := parseIntJS (jsOr (headersGet r.headers "x-ratelimit-remaining")
    (jsOr (some (jsNumToString st.remainingRequests)) "30"))
  match resetChain (headersGet r.headers "x-ratelimit-reset") st.nextResetTime now with
  | Except.error e => ({ st with remainingRequests := rem }, Except.error e)
  | Except.ok d =>
    (⟨rem, some d⟩,
      if r.ok = false then
        Except.error ("HTTP error (Is Habitica API down?); status: " ++ intToString (Int.ofNat r.status))
      else if r.success = false then
        Except.error "Habitica API error (Was there a Habitica API update?)"
      else
        Except.ok r.data)

/-- Embeds the data path of the orchestrator `createHabiticaNotes` (main.ts
626-644) through `retrieveAllTasks` → `retrieveTasks` →
`callWhenRateLimitAllows` → `_handleResponse` for the one shared fetch: the
gate passes the response through `_handleResponse` exactly once and never
retries, a thrown error propagates through the awaited
`retrieveAllTasks`, and only a successful result reaches the write loop. -/
def syncAllWrites (st : ApiState) (r : JsResponse) (now : Int)
    (settings : HabiticaTasksSettings) : Except String (List (String × String)) :=
  match (handleResponse st r now).2 with
  | Except.error e => Except.error e
  | Except.ok tasks => createHabiticaNotesRun now settings tasks

/-- Embeds `HABITICA_API_EVENTS` (types.ts 85). -/
inductive ApiEvent where
  | todoUpdated
  | dailyUpdated
  | habitUpdated
  | taskUpdated
deriving DecidableEq, Repr

/-- Embeds `SUBSCRIBER_IDs` (types.ts 86). -/
inductive SubscriberID where
  | paneSync
  | noteSync
deriving DecidableEq, Repr

/-- The `eventListeners` registry (api.ts 16-21): for each event and
subscriber group, the contents of the backing JS `Set`, in insertion order;
listeners are identified by an abstract id. -/
def Hub : Type := ApiEvent → SubscriberID → List Nat

/-- Embeds `subscribe` (api.ts 41-44): `Set#add` is an idempotent append. -/
def subscribe (h : Hub) (e : ApiEvent) (g : SubscriberID) (l : Nat) : Hub :=
  fun e' g' =>
    if e' = e ∧ g' = g then (if l ∈ h e g then h e g else h e g ++ [l]) else h e' g'

/-- Embeds `unsubscribe` (api.ts 52-55): `Set#delete`. -/
def unsubscribe (h : Hub) (e : ApiEvent) (g : SubscriberID) (l : Nat) : Hub :=
  fun e' g' =>
    if e' = e ∧ g' = g then (h e g).filter (fun x => decide (x ≠ l)) else h e' g'

/-- Listeners fired by `emit` (api.ts 57-64) for an event: every listener of
every subscriber group, groups in `SUBSCRIBER_IDs` order. -/
def firedListeners (h : Hub) (e : ApiEvent) : List Nat :=
  h e SubscriberID.paneSync ++ h e SubscriberID.noteSync

/-- Embeds `performWhileUnsubscribed` (api.ts 84-95). The local `listeners`
is a reference to the live `Set`, not a copy: the first `forEach` visits the
entries present at entry (deleting the entry just visited does not skip the
rest) and unsubscribes each, so when it finishes the aliased set is empty;
`duringAwait` is the state change produced while `awaitable` is awaited; the
second `forEach` then iterates the same live set — whatever it contains
after the await — and resubscribes those entries. -/
def performWhileUnsubscribed (h : Hub) (e : ApiEvent) (g : SubscriberID)
    (duringAwait : Hub → Hub) : Hub :=
  let visited := h e g
  let h1 := visited.foldl (fun acc l => unsubscribe acc e g l) h
  let h2 := duringAwait h1
  let visited2 := h2 e g
  visited2.foldl (fun acc l => subscribe acc e g l) h2

/-- Example render settings for concrete evaluations. -/
def exSettings : HabiticaTasksSettings := ⟨"    ", none, 10000⟩

/-- Example daily task. -/
def exDaily : HabiticaTask :=
  ⟨"daily", none, [], false, JSNum.fin 1, "stretch", []⟩

/-- Example habit task with no due data. -/
def exHabit : HabiticaTask :=
  ⟨"habit", none, [], false, JSNum.fin 2, "hydrate", []⟩

/-- Example task with an unknown category. -/
def exUnknown : HabiticaTask :=
  ⟨"sideQuest", none, [], false, JSNum.fin 1, "explore", []⟩

/-- Example todo carrying both a direct date (day 2) and a `nextDue` list
whose earliest entry is day 0. -/
def exTodoBoth : HabiticaTask :=
  ⟨"todo", some 172800000, [0], false, JSNum.fin 1, "report", []⟩

/-- Example habit carrying a non-empty `nextDue` list (day 0). -/
def exHabitDue : HabiticaTask :=
  ⟨"habit", none, [0], false, JSNum.fin 1, "review", []⟩

/-- Example task whose category names an inherited `Object.prototype`
property. -/
def exProto : HabiticaTask :=
  ⟨"toString", none, [], false, JSNum.fin 1, "sneaky", []⟩

/-- Example task list with one daily and one unknown-category task. -/
def exTasks : List HabiticaTask := [exDaily, exUnknown]

/-- Example client state: 7 remaining requests, valid reset instant. -/
def exState : ApiState := ⟨some 7, some (JSDate.valid 1000)⟩

/-- Example client state with the quota exhausted and a future reset. -/
def exExhausted : ApiState := ⟨some 0, some (JSDate.valid 100)⟩

/-- Example client state with the quota exhausted and no known reset. -/
def exFresh : ApiState := ⟨some 0, none⟩

/-- Example response whose rate-limit headers are present but unparseable. -/
def exBadHeaders : JsResponse :=
  ⟨[("x-ratelimit-remaining", "oops"), ("x-ratelimit-reset", "garbage")], true, 200, true, []⟩

/-- Example successful response carrying no rate-limit headers at all. -/
def exNoHeaders : JsResponse := ⟨[], true, 200, true, []⟩

/-- Example failed response (HTTP 500) with a parseable remaining header. -/
def exFailResponse : JsResponse :=
  ⟨[("x-ratelimit-remaining", "12")], false, 500, true, [exDaily]⟩

/-- Example successful response carrying one daily and one habit task. -/
def exOkResponse : JsResponse :=
  ⟨[("x-ratelimit-remaining", "29")], true, 200, true, [exDaily, exHabit]⟩

/-- Example hub: listener 7 registered for `taskUpdated` in the `noteSync`
group, nothing else. -/
def exHub : Hub := fun e g =>
  match e, g with
  | ApiEvent.taskUpdated, SubscriberID.noteSync => [7]
  | _, _ => []

theorem digitVal_digitChar (d : Nat) (h : d < 10) : digitVal (digitChar d) = d := by
  interval_cases d <;> rfl

theorem isDigitCh_digitChar (d : Nat) (h : d < 10) : isDigitCh (digitChar d) = true := by
  interval_cases d <;> rfl

theorem digitsRevCore_zero (fuel : Nat) : digitsRevCore fuel 0 = [] := by
  cases fuel <;> simp [digitsRevCore]

theorem digitsRevCore_stable (fuel : Nat) :
    ∀ fuel2 n, n ≤ fuel → n ≤ fuel2 → digitsRevCore fuel n = digitsRevCore fuel2 n := by
  induction fuel with
  | zero =>
    intro fuel2 n h _
    interval_cases n
    rw [digitsRevCore_zero, digitsRevCore_zero]
  | succ f ih =>
    intro fuel2 n h h2
    match n with
    | 0 => rw [digitsRevCore_zero, digitsRevCore_zero]
    | m + 1 =>
      obtain ⟨f2, rfl⟩ : ∃ f2, fuel2 = f2 + 1 := ⟨fuel2 - 1, by omega⟩
      simp only [digitsRevCore]
      rw [if_neg (Nat.succ_ne_zero m), if_neg (Nat.succ_ne_zero m)]
      congr 1
      exact ih f2 ((m + 1) / 10) (by omega) (by omega)

theorem digitsRev_succ (m : Nat) :
    digitsRev (m + 1) = digitChar ((m + 1) % 10) :: digitsRev ((m + 1) / 10) := by
  unfold digitsRev
  simp only [digitsRevCore]
  rw [if_neg (Nat.succ_ne_zero m)]
  congr 1
  exact digitsRevCore_stable m ((m + 1) / 10) ((m + 1) / 10) (by omega) (le_refl _)

theorem isDigitCh_digitsRev (n : Nat) : ∀ c ∈ digitsRev n, isDigitCh c = true := by
  induction n using Nat.strong_induction_on with
  | _ n ih =>
    match n with
    | 0 => intro c hc; simp [digitsRev, digitsRevCore] at hc
    | m + 1 =>
      intro c hc
      rw [digitsRev_succ] at hc
      rcases List.mem_cons.mp hc with hc | hc
      · subst hc
        exact isDigitCh_digitChar _ (Nat.mod_lt _ (by norm_num))
      · exact ih ((m + 1) / 10) (Nat.div_lt_self (Nat.succ_pos m) (by norm_num)) c hc

theorem valMSB_digitsRev (n : Nat) : valMSB (digitsRev n).reverse = n := by
  induction n using Nat.strong_induction_on with
  | _ n ih =>
    match n with
    | 0 => rfl
    | m + 1 =>
      rw [digitsRev_succ, List.reverse_cons]
      unfold valMSB
      rw [List.foldl_append]
      have hlt : (m + 1) / 10 < m + 1 := Nat.div_lt_self (Nat.succ_pos m) (by norm_num)
      have hrec := ih ((m + 1) / 10) hlt
      unfold valMSB at hrec
      rw [hrec]
      simp only [List.foldl_cons, List.foldl_nil]
      rw [digitVal_digitChar _ (Nat.mod_lt _ (by norm_num))]
      omega

theorem natChars_all_digits (n : Nat) : ∀ c ∈ natChars n, isDigitCh c = true := by
  intro c hc
  unfold natChars at hc
  split at hc
  · simp at hc; subst hc; rfl
  · exact isDigitCh_digitsRev n c (List.mem_reverse.mp hc)

theorem natChars_ne_nil (n : Nat) : natChars n ≠ [] := by
  unfold natChars
  split
  · simp
  · intro h
    rw [List.reverse_eq_nil_iff] at h
    rename_i hn
    obtain ⟨m, rfl⟩ : ∃ m, n = m + 1 := ⟨n - 1, by omega⟩
    rw [digitsRev_succ] at h
    simp at h

theorem valMSB_natChars (n : Nat) : valMSB (natChars n) = n := by
  unfold natChars
  split
  · rename_i h; rw [h]; rfl
  · exact valMSB_digitsRev n

theorem digitsPart_natChars (n : Nat) : digitsPart (natChars n) = some n := by
  unfold digitsPart
  rw [List.takeWhile_eq_self_iff.mpr (natChars_all_digits n)]
  rw [if_neg (natChars_ne_nil n), valMSB_natChars]

theorem digit_not_special (c : Char) (h : isDigitCh c = true) :
    c ≠ ' ' ∧ c ≠ '-' ∧ c ≠ '+' := by
  refine ⟨?_, ?_, ?_⟩ <;> intro he <;> subst he <;> exact absurd h (by decide)

theorem parseIntChars_natChars (m : Nat) : parseIntChars (natChars m) = some (m : Int) := by
  obtain ⟨c, r, hcr⟩ := List.exists_cons_of_ne_nil (natChars_ne_nil m)
  have hdig : isDigitCh c = true := natChars_all_digits m c (by rw [hcr]; exact List.mem_cons_self _ _)
  obtain ⟨hsp, hmi, hpl⟩ := digit_not_special c hdig
  rw [hcr]
  unfold parseIntChars
  rw [List.dropWhile_cons]
  simp only [decide_eq_true_eq]
  rw [if_neg hsp]
  simp only [parseSigned]
  rw [if_neg hmi, if_neg hpl]
  rw [← hcr, digitsPart_natChars]
  rfl

theorem parseIntJS_intToString (n : Int) : parseIntJS (intToString n) = some n := by
  cases n with
  | ofNat m =>
    show parseIntChars (natChars m) = some (Int.ofNat m)
    rw [parseIntChars_natChars]
    rfl
  | negSucc m =>
    show parseIntChars ('-' :: natChars (m + 1)) = some (Int.negSucc m)
    unfold parseIntChars
    rw [List.dropWhile_cons]
    simp only [decide_eq_true_eq]
    rw [if_neg (by decide : ('-' : Char) ≠ ' ')]
    simp only [parseSigned]
    rw [if_pos trivial]
    rw [digitsPart_natChars]
    show some (-((m + 1 : Nat) : Int)) = some (Int.negSucc m)
    rw [Option.some.injEq, Int.negSucc_eq]
    push_cast
    ring

theorem parseIntAll_natChars (m : Nat) : parseIntAll (natChars m) = some (m : Int) := by
  obtain ⟨c, r, hcr⟩ := List.exists_cons_of_ne_nil (natChars_ne_nil m)
  have hdig : isDigitCh c = true := natChars_all_digits m c (by rw [hcr]; exact List.mem_cons_self _ _)
  obtain ⟨_, hmi, _⟩ := digit_not_special c hdig
  rw [hcr]
  simp only [parseIntAll]
  rw [if_neg hmi]
  rw [if_pos (by rw [← hcr]; exact List.all_eq_true.mpr (natChars_all_digits m))]
  rw [← hcr, valMSB_natChars]

theorem parseIntAll_intChars (n : Int) : parseIntAll (intChars n) = some n := by
  cases n with
  | ofNat m => exact parseIntAll_natChars m
  | negSucc m =>
    show parseIntAll ('-' :: natChars (m + 1)) = some (Int.negSucc m)
    simp only [parseIntAll]
    rw [if_pos trivial]
    rw [if_pos ⟨natChars_ne_nil (m + 1), List.all_eq_true.mpr (natChars_all_digits (m + 1))⟩]
    rw [valMSB_natChars]
    rw [Option.some.injEq, Int.negSucc_eq]
    push_cast
    ring

theorem parseDateJS_dateToISO (ms : Int) : parseDateJS (dateToISO ms) = JSDate.valid ms := by
  show (match parseIntAll (intChars ms) with
        | some n => JSDate.valid n
        | none => JSDate.invalid) = JSDate.valid ms
  rw [parseIntAll_intChars]

theorem priorityToEmoji_fin_eq (q : ℚ) :
    priorityToEmoji (JSNum.fin q) =
      glyphAt (JSNum.fin ((⌊max 0 (min 3 q) + 1/2⌋ : ℤ) : ℚ)) := rfl

theorem glyphAt_int_mem (k : ℤ) (h0 : 0 ≤ k) (h3 : k ≤ 3) :
    glyphAt (JSNum.fin (k : ℚ)) ∈ TASK_PRIORITIES := by
  interval_cases k <;> decide

/-- C9 (amended): `priorityToEmoji` maps every finite input to one of the
four glyphs — inputs below 0 to the lowest, above 3 to the highest — and the
infinities to the corresponding extreme glyphs; a `NaN` priority indexes the
table at `NaN`, which reads `undefined` and yields the empty string rather
than a clamped glyph; no input errors. -/
theorem C9_priorityToEmoji_clamps (q : ℚ) :
    priorityToEmoji (JSNum.fin q) ∈ TASK_PRIORITIES
    ∧ (q < 0 → priorityToEmoji (JSNum.fin q) = "⏬")
    ∧ (3 < q → priorityToEmoji (JSNum.fin q) = "⏫")
    ∧ priorityToEmoji JSNum.posInf = "⏫"
    ∧ priorityToEmoji JSNum.negInf = "⏬"
    ∧ priorityToEmoji JSNum.nan = "" := by
  have hf0 : (⌊(0 : ℚ) + 1/2⌋ : ℤ) = 0 := by
    rw [Int.floor_eq_iff]
    norm_num
  have hf3 : (⌊(3 : ℚ) + 1/2⌋ : ℤ) = 3 := by
    rw [Int.floor_eq_iff]
    norm_num
  refine ⟨?_, ?_, ?_, ?_, ?_, rfl⟩
  · rw [priorityToEmoji_fin_eq]
    have hc0 : (0 : ℚ) ≤ max 0 (min 3 q) := le_max_left _ _
    have hc3 : max 0 (min 3 q) ≤ 3 := max_le (by norm_num) (min_le_left _ _)
    have hk0 : (0 : ℤ) ≤ ⌊max 0 (min 3 q) + 1/2⌋ := by
      rw [Int.le_floor]
      push_cast
      linarith
    have hk3 : ⌊max 0 (min 3 q) + 1/2⌋ ≤ 3 := by
      have h4 : ⌊max 0 (min 3 q) + 1/2⌋ < 4 := by
        rw [Int.floor_lt]
        push_cast
        linarith
      omega
    exact glyphAt_int_mem _ hk0 hk3
  · intro hq
    rw [priorityToEmoji_fin_eq]
    rw [min_eq_right (by linarith : q ≤ 3), max_eq_left (by linarith : q ≤ 0)]
    rw [hf0]
    decide
  · intro hq
    rw [priorityToEmoji_fin_eq]
    rw [min_eq_left (by linarith : (3 : ℚ) ≤ q), max_eq_right (by norm_num : (0 : ℚ) ≤ 3)]
    rw [hf3]
    decide
  · show glyphAt (JSNum.fin ((⌊max (0:ℚ) 3 + 1/2⌋ : ℤ) : ℚ)) = "⏫"
    rw [max_eq_right (by norm_num : (0 : ℚ) ≤ 3), hf3]
    decide
  · show glyphAt (JSNum.fin ((⌊(0:ℚ) + 1/2⌋ : ℤ) : ℚ)) = "⏬"
    rw [hf0]
    decide

/-- C9 witness: the amended clamping behaviour at concrete priorities. -/
theorem C9_priorityToEmoji_clamps_witness :
    priorityToEmoji (JSNum.fin (3/2)) ∈ TASK_PRIORITIES
    ∧ priorityToEmoji (JSNum.fin (-1)) = "⏬"
    ∧ priorityToEmoji (JSNum.fin 5) = "⏫" :=
  ⟨(C9_priorityToEmoji_clamps (3/2)).1,
   (C9_priorityToEmoji_clamps (-1)).2.1 (by decide),
   (C9_priorityToEmoji_clamps 5).2.2.1 (by decide)⟩

/-- C9 counterexample: a `NaN` priority is a non-finite numeric input that
is not clamped into the glyph table — the lookup yields the empty string,
which is none of the four glyphs. -/
theorem C9_counterexample_nan :
    priorityToEmoji JSNum.nan = "" ∧ "" ∉ TASK_PRIORITIES :=
  ⟨rfl, by decide⟩

theorem mapGet_emptyTaskMap (c : String) : mapGet emptyTaskMap c = [] := by
  unfold mapGet emptyTaskMap
  split_ifs <;> rfl

theorem mapGet_mapSet_same (m : HabiticaTaskMap) (ty : String) (l : List HabiticaTask)
    (hty : ty ∈ TASK_TYPES) : mapGet (mapSet m ty l) ty = l := by
  fin_cases hty <;> rfl

theorem mapGet_mapSet_other (m : HabiticaTaskMap) (ty c : String) (l : List HabiticaTask)
    (hty : ty ∈ TASK_TYPES) (hne : c ≠ ty) : mapGet (mapSet m ty l) c = mapGet m c := by
  fin_cases hty <;>
    · simp only [mapSet, reduceIte]
      unfold mapGet
      split_ifs <;> simp_all

theorem proto_key_not_task_type (x : String) (h : x ∈ OBJECT_PROTOTYPE_KEYS) :
    x ∉ TASK_TYPES := by
  fin_cases h <;> decide

theorem pushTask_ok (m : HabiticaTaskMap) (t : HabiticaTask)
    (h : t.type ∉ OBJECT_PROTOTYPE_KEYS) :
    pushTask m t = Except.ok (pushTaskFn m t) := by
  unfold pushTask pushTaskFn
  by_cases hk : t.type ∈ TASK_TYPES
  · rw [if_pos hk, if_pos hk]
  · rw [if_neg hk, if_neg hk, if_neg h]

theorem pushTask_throws (m : HabiticaTaskMap) (t : HabiticaTask)
    (h : t.type ∈ OBJECT_PROTOTYPE_KEYS) :
    pushTask m t = Except.error "TypeError: taskMap[task.type].push is not a function" := by
  unfold pushTask
  rw [if_neg (proto_key_not_task_type t.type h), if_pos h]

theorem organizeLoop_ok (ts : List HabiticaTask) :
    ∀ m : HabiticaTaskMap, (∀ t ∈ ts, t.type ∉ OBJECT_PROTOTYPE_KEYS) →
      organizeLoop m ts = Except.ok (ts.foldl pushTaskFn m) := by
  induction ts with
  | nil => intro m _; rfl
  | cons t ts ih =>
    intro m h
    show (match pushTask m t with
          | Except.ok m2 => organizeLoop m2 ts
          | Except.error e => Except.error e) = _
    rw [pushTask_ok m t (h t (List.mem_cons_self t ts)), List.foldl_cons]
    exact ih (pushTaskFn m t) (fun u hu => h u (List.mem_cons_of_mem t hu))

theorem organizeLoop_err (ts : List HabiticaTask) :
    ∀ m : HabiticaTaskMap, (∃ t ∈ ts, t.type ∈ OBJECT_PROTOTYPE_KEYS) →
      ∃ e, organizeLoop m ts = Except.error e := by
  induction ts with
  | nil =>
    intro m h
    rcases h with ⟨t, ht, _⟩
    simp at ht
  | cons t ts ih =>
    intro m h
    by_cases hp : t.type ∈ OBJECT_PROTOTYPE_KEYS
    · refine ⟨"TypeError: taskMap[task.type].push is not a function", ?_⟩
      show (match pushTask m t with
            | Except.ok m2 => organizeLoop m2 ts
            | Except.error e => Except.error e) = _
      rw [pushTask_throws m t hp]
    · rcases h with ⟨u, hu, hup⟩
      rcases List.mem_cons.mp hu with rfl | hu2
      · exact absurd hup hp
      · obtain ⟨e, he⟩ := ih (pushTaskFn m t) ⟨u, hu2, hup⟩
        refine ⟨e, ?_⟩
        show (match pushTask m t with
              | Except.ok m2 => organizeLoop m2 ts
              | Except.error e => Except.error e) = _
        rw [pushTask_ok m t hp]
        exact he

theorem mapGet_pushTaskFn (m : HabiticaTaskMap) (t : HabiticaTask) (c : String)
    (hc : c ∈ TASK_TYPES) :
    mapGet (pushTaskFn m t) c = mapGet m c ++ (if t.type = c then [t] else []) := by
  unfold pushTaskFn
  by_cases hm : t.type ∈ TASK_TYPES
  · rw [if_pos hm]
    by_cases he : t.type = c
    · subst he
      rw [mapGet_mapSet_same m t.type _ hm, if_pos rfl]
    · rw [mapGet_mapSet_other m t.type c _ hm (fun h => he h.symm), if_neg he]
      simp
  · rw [if_neg hm]
    have he : t.type ≠ c := fun h => hm (h ▸ hc)
    rw [if_neg he]
    simp

theorem mapGet_foldl (ts : List HabiticaTask) (m : HabiticaTaskMap) (c : String)
    (hc : c ∈ TASK_TYPES) :
    mapGet (ts.foldl pushTaskFn m) c = mapGet m c ++ ts.filter (fun t => decide (t.type = c)) := by
  induction ts generalizing m with
  | nil => simp
  | cons t ts ih =>
    rw [List.foldl_cons, ih (pushTaskFn m t), List.filter_cons, mapGet_pushTaskFn m t c hc]
    by_cases h : t.type = c <;> simp [h]

theorem totalLen_pushTaskFn (m : HabiticaTaskMap) (t : HabiticaTask) :
    totalLen (pushTaskFn m t) = totalLen m + (if t.type ∈ TASK_TYPES then 1 else 0) := by
  unfold pushTaskFn
  by_cases hm : t.type ∈ TASK_TYPES
  · rw [if_pos hm, if_pos hm]
    simp only [TASK_TYPES, List.mem_cons, List.not_mem_nil, or_false] at hm
    rcases hm with h | h | h | h | h <;>
      · simp [mapSet, mapGet, totalLen, h]
        omega
  · rw [if_neg hm, if_neg hm]
    omega

theorem totalLen_foldl (ts : List HabiticaTask) (m : HabiticaTaskMap) :
    totalLen (ts.foldl pushTaskFn m) + droppedCount ts = totalLen m + ts.length := by
  induction ts generalizing m with
  | nil => simp [droppedCount]
  | cons t ts ih =>
    rw [List.foldl_cons]
    have hrec := ih (pushTaskFn m t)
    rw [totalLen_pushTaskFn] at hrec
    unfold droppedCount at hrec ⊢
    rw [List.filter_cons]
    by_cases h : t.type ∈ TASK_TYPES <;> simp [h] at hrec ⊢ <;> omega

/-- C8 (amended): for every input list in which no task's category names an
inherited `Object.prototype` property, `organizeHabiticaTasksByType`
returns a map giving each of the five known categories exactly the input's
tasks of that category in input order (order-preserving per category,
always present, possibly empty), warns and drops unknown categories without
raising, and conserves the count: stored totals plus dropped count equal
the input length. But a task whose category names an inherited property
(`toString`, `valueOf`, …) passes the `in` guard and makes
`taskMap[task.type].push` throw a TypeError, aborting classification. -/
theorem C8_organize_classifies (tasks : List HabiticaTask) :
    ((∀ t ∈ tasks, t.type ∉ OBJECT_PROTOTYPE_KEYS) →
      organizeHabiticaTasksByType tasks = Except.ok (tasks.foldl pushTaskFn emptyTaskMap)
      ∧ (∀ c, c ∈ TASK_TYPES →
          mapGet (tasks.foldl pushTaskFn emptyTaskMap) c
            = tasks.filter (fun t => decide (t.type = c)))
      ∧ totalLen (tasks.foldl pushTaskFn emptyTaskMap) + droppedCount tasks = tasks.length)
    ∧ ((∃ t ∈ tasks, t.type ∈ OBJECT_PROTOTYPE_KEYS) →
      ∃ e, organizeHabiticaTasksByType tasks = Except.error e) := by
  constructor
  · intro h
    refine ⟨organizeLoop_ok tasks emptyTaskMap h, ?_, ?_⟩
    · intro c hc
      rw [mapGet_foldl tasks emptyTaskMap c hc, mapGet_emptyTaskMap]
      rfl
    · have hlen := totalLen_foldl tasks emptyTaskMap
      simpa [totalLen, emptyTaskMap] using hlen
  · intro h
    exact organizeLoop_err tasks emptyTaskMap h

/-- C8 witness: a daily plus an unknown (non-inherited) category classify
as claimed, and a crafted `toString` category aborts with an error. -/
theorem C8_organize_classifies_witness :
    organizeHabiticaTasksByType exTasks = Except.ok (exTasks.foldl pushTaskFn emptyTaskMap)
    ∧ mapGet (exTasks.foldl pushTaskFn emptyTaskMap) "daily"
        = exTasks.filter (fun t => decide (t.type = "daily"))
    ∧ totalLen (exTasks.foldl pushTaskFn emptyTaskMap) + droppedCount exTasks = exTasks.length
    ∧ ∃ e, organizeHabiticaTasksByType [exProto] = Except.error e :=
  ⟨((C8_organize_classifies exTasks).1 (by decide)).1,
   ((C8_organize_classifies exTasks).1 (by decide)).2.1 "daily" (by decide),
   ((C8_organize_classifies exTasks).1 (by decide)).2.2,
   (C8_organize_classifies [exProto]).2 ⟨exProto, by decide, by decide⟩⟩

/-- C8 counterexample: `"toString"` is an unknown category (not one of the
five), yet classification raises a TypeError on it instead of warning and
dropping the task — `'toString' in taskMap` is true through the prototype
chain, so `taskMap['toString'].push(task)` is called on a function without
a `push` method. -/
theorem C8_counterexample_prototype :
    "toString" ∉ TASK_TYPES
    ∧ organizeHabiticaTasksByType [exProto]
        = Except.error "TypeError: taskMap[task.type].push is not a function" :=
  ⟨by decide, rfl⟩

theorem foldl_earliest_le_init (l : List Int) :
    ∀ y : Int, l.foldl (fun earliest current => if current < earliest then current else earliest) y ≤ y := by
  induction l with
  | nil => intro y; exact le_refl y
  | cons c l ih =>
    intro y
    rw [List.foldl_cons]
    refine le_trans (ih _) ?_
    split <;> omega

theorem foldl_earliest_le_mem (l : List Int) :
    ∀ y x : Int, x ∈ l →
      l.foldl (fun earliest current => if current < earliest then current else earliest) y ≤ x := by
  induction l with
  | nil => intro y x hx; simp at hx
  | cons c l ih =>
    intro y x hx
    rw [List.foldl_cons]
    rcases List.mem_cons.mp hx with h | h
    · subst h
      refine le_trans (foldl_earliest_le_init l _) ?_
      split <;> omega
    · exact ih _ x h

theorem foldl_earliest_mem_or (l : List Int) :
    ∀ y : Int, l.foldl (fun earliest current => if current < earliest then current else earliest) y = y
      ∨ l.foldl (fun earliest current => if current < earliest then current else earliest) y ∈ l := by
  induction l with
  | nil => intro y; left; rfl
  | cons c l ih =>
    intro y
    rw [List.foldl_cons]
    rcases ih (if c < y then c else y) with h | h
    · rw [h]
      split
      · right; exact List.mem_cons_self _ _
      · left; rfl
    · right; exact List.mem_cons_of_mem _ h

theorem earliestDue_mem (l : List Int) (h : l ≠ []) : earliestDue l ∈ l := by
  unfold earliestDue
  rcases foldl_earliest_mem_or l (l.headD 0) with he | he
  · rw [he]
    match l, h with
    | a :: l, _ => exact List.mem_cons_self a l
  · exact he

theorem earliestDue_le (l : List Int) (x : Int) (hx : x ∈ l) : earliestDue l ≤ x :=
  foldl_earliest_le_mem l (l.headD 0) x hx

/-- C5 (amended): `taskDueDate` resolves the displayed due day as: a daily
task always gets today; a todo task with a truthy `date` field gets that
date — even when a non-empty `nextDue` list is also present; any other task
(including non-todo categories) with a non-empty `nextDue` list gets the
earliest instant of that list, independent of list order; every remaining
task gets no due date. -/
theorem C5_taskDueDate_resolution (now : Int) (t : HabiticaTask) (d : Int) :
    (t.type = "daily" → taskDueDate now t = "📅 " ++ dayStr now)
    ∧ (t.type = "todo" → t.date = some d → taskDueDate now t = "📅 " ++ dayStr d)
    ∧ (t.type ≠ "daily" → ¬(t.type = "todo" ∧ t.date.isSome) → t.nextDue ≠ [] →
        taskDueDate now t = "📅 " ++ dayStr (earliestDue t.nextDue)
        ∧ earliestDue t.nextDue ∈ t.nextDue
        ∧ ∀ x ∈ t.nextDue, earliestDue t.nextDue ≤ x)
    ∧ (t.type ≠ "daily" → ¬(t.type = "todo" ∧ t.date.isSome) → t.nextDue = [] →
        taskDueDate now t = "") := by
  refine ⟨?_, ?_, ?_, ?_⟩
  · intro h
    unfold taskDueDate
    rw [if_pos h]
  · intro ht hd
    unfold taskDueDate
    rw [if_neg (by rw [ht]; decide), if_pos ⟨ht, by rw [hd]; rfl⟩, hd]
    rfl
  · intro h1 h2 h3
    unfold taskDueDate
    rw [if_neg h1, if_neg h2, if_pos h3]
    exact ⟨rfl, earliestDue_mem t.nextDue h3, fun x hx => earliestDue_le t.nextDue x hx⟩
  · intro h1 h2 h3
    unfold taskDueDate
    rw [if_neg h1, if_neg h2, if_neg (by rw [h3]; exact fun hc => hc rfl)]

/-- C5 witness: the amended resolution at concrete tasks — a todo whose
`date` is day 2 displays day 2 although its `nextDue` holds day 0, and a
habit with `nextDue = [0]` displays day 0. -/
theorem C5_taskDueDate_resolution_witness :
    taskDueDate 0 exTodoBoth = "📅 " ++ dayStr 172800000
    ∧ taskDueDate 0 exHabitDue = "📅 " ++ dayStr (earliestDue exHabitDue.nextDue) :=
  ⟨(C5_taskDueDate_resolution 0 exTodoBoth 172800000).2.1 (by decide) (by decide),
   ((C5_taskDueDate_resolution 0 exHabitDue 0).2.2.1 (by decide) (by decide) (by decide)).1⟩

/-- C5 counterexample: a todo with `date` = day 2 and `nextDue` = [day 0]
displays day 2, not the earliest `nextDue` entry, and a habit (a category
the claim gives no due date) with `nextDue` = [day 0] displays day 0. -/
theorem C5_counterexample_dateWins :
    taskDueDate 0 exTodoBoth = "📅 2"
    ∧ "📅 2" ≠ "📅 " ++ dayStr (earliestDue exTodoBoth.nextDue)
    ∧ taskDueDate 0 exHabitDue = "📅 0"
    ∧ taskDueDate 0 exHabitDue ≠ "" := by
  refine ⟨by decide, by decide, by decide, by decide⟩

/-- C6 (amended): when the fetched list classifies successfully (no task
category naming an inherited `Object.prototype` property), the write loop
writes, for each category that is not excluded and whose task list is
non-empty, exactly the artifact `<category>.md` whose complete contents are
that category's rendered tasks joined by the fixed separator — and nothing
else: every write is of that shape, so no artifact is ever written for
`reward`, `completedTodo`, or an empty category. When classification throws
(a category naming an inherited property), the awaited `retrieveAllTasks`
propagates the TypeError and the orchestrator writes nothing at all. -/
theorem C6_createHabiticaNotes_writes (now : Int) (s : HabiticaTasksSettings)
    (tasks : List HabiticaTask) (taskMap : HabiticaTaskMap) :
    (organizeHabiticaTasksByType tasks = Except.ok taskMap →
      createHabiticaNotesRun now s tasks = Except.ok (createHabiticaNotesWrites now s taskMap)
      ∧ (∀ w ∈ createHabiticaNotesWrites now s taskMap,
          ∃ ty, ty ∈ TASK_TYPES ∧ ty ∉ EXCLUDED_TASK_TYPES
            ∧ mapGet taskMap ty ≠ []
            ∧ w = (ty ++ ".md",
                String.intercalate "\n\n---\n\n"
                  ((mapGet taskMap ty).map (fun t => taskToNoteLines now t s))))
      ∧ (∀ ty, ty ∈ TASK_TYPES → ty ∉ EXCLUDED_TASK_TYPES →
          mapGet taskMap ty ≠ [] →
          (ty ++ ".md",
            String.intercalate "\n\n---\n\n"
              ((mapGet taskMap ty).map (fun t => taskToNoteLines now t s)))
            ∈ createHabiticaNotesWrites now s taskMap))
    ∧ ((∃ t ∈ tasks, t.type ∈ OBJECT_PROTOTYPE_KEYS) →
        ∀ ws, createHabiticaNotesRun now s tasks ≠ Except.ok ws) := by
  constructor
  · intro hm
    refine ⟨by simp [createHabiticaNotesRun, hm], ?_, ?_⟩
    · intro w hw
      unfold createHabiticaNotesWrites at hw
      rcases List.mem_filterMap.mp hw with ⟨ty, hty, hf⟩
      by_cases hc : (mapGet taskMap ty).length = 0 ∨ ty ∈ EXCLUDED_TASK_TYPES
      · rw [if_pos hc] at hf
        exact absurd hf (by simp)
      · rw [if_neg hc] at hf
        push_neg at hc
        obtain ⟨hlen, hex⟩ := hc
        refine ⟨ty, hty, hex, ?_, ?_⟩
        · intro hnil
          exact hlen (by rw [hnil]; rfl)
        · exact (Option.some.inj hf).symm
    · intro ty hty hex hne
      apply List.mem_filterMap.mpr
      refine ⟨ty, hty, ?_⟩
      rw [if_neg ?_]
      push_neg
      exact ⟨fun h => hne (List.length_eq_zero.mp h), hex⟩
  · intro hex ws hws
    obtain ⟨e, he⟩ := organizeLoop_err tasks emptyTaskMap hex
    rw [createHabiticaNotesRun] at hws
    rw [show organizeHabiticaTasksByType tasks = Except.error e from he] at hws
    exact absurd hws (by simp)

/-- C6 witness: with one habit task fetched and classified, the run writes
`habit.md` with the habit's rendered block as its complete contents; with a
`toString`-category task fetched, the run produces no write list. -/
theorem C6_createHabiticaNotes_writes_witness :
    ("habit.md",
      String.intercalate "\n\n---\n\n"
        ((mapGet ([exHabit].foldl pushTaskFn emptyTaskMap) "habit").map
          (fun t => taskToNoteLines 0 t exSettings)))
      ∈ createHabiticaNotesWrites 0 exSettings ([exHabit].foldl pushTaskFn emptyTaskMap)
    ∧ createHabiticaNotesRun 0 exSettings [exProto] ≠ Except.ok [] :=
  ⟨((C6_createHabiticaNotes_writes 0 exSettings [exHabit]
        ([exHabit].foldl pushTaskFn emptyTaskMap)).1 rfl).2.2 "habit"
      (by decide) (by decide) (by decide),
   (C6_createHabiticaNotes_writes 0 exSettings [exProto] emptyTaskMap).2
      ⟨exProto, by decide, by decide⟩ []⟩

/-- C6 counterexample: a successful fetch containing one habit and no daily
produces no `daily.md` artifact although `daily` is not excluded — the loop
skips empty categories instead of writing their (empty) artifact. -/
theorem C6_counterexample_emptySkipped :
    "daily" ∈ TASK_TYPES
    ∧ "daily" ∉ EXCLUDED_TASK_TYPES
    ∧ organizeHabiticaTasksByType [exHabit] = Except.ok ([exHabit].foldl pushTaskFn emptyTaskMap)
    ∧ (createHabiticaNotesWrites 0 exSettings ([exHabit].foldl pushTaskFn emptyTaskMap)).map Prod.fst
        = ["habit.md"]
    ∧ "daily.md" ∉ (createHabiticaNotesWrites 0 exSettings
        ([exHabit].foldl pushTaskFn emptyTaskMap)).map Prod.fst :=
  ⟨by decide, by decide, rfl, by decide, by decide⟩

theorem intChars_ne_nil (n : Int) : intChars n ≠ [] := by
  cases n with
  | ofNat m => exact natChars_ne_nil m
  | negSucc m => simp [intChars]

theorem intToString_ne_empty (n : Int) : intToString n ≠ "" := by
  intro h
  have hd : (intToString n).data = [] := by rw [h]
  exact intChars_ne_nil n hd

theorem jsOr_self_toString (n : Int) :
    jsOr (some (jsNumToString (some n))) "30" = intToString n := by
  simp only [jsNumToString, jsOr]
  rw [if_neg (intToString_ne_empty n)]

/-- C4 (amended): `_handleResponse` retains the previous rate-limit state
when a header is absent — the absent `x-ratelimit-remaining` falls back to
re-parsing the previous count, and the absent `x-ratelimit-reset` re-parses
the previous valid instant's ISO string — but a header that is present yet
unparseable is not retained: such a remaining header sets
`remainingRequests` to `NaN`, and such a reset header sets `nextResetTime`
to an invalid date. -/
theorem C4_handleResponse_header_retention (st : ApiState) (r : JsResponse) (now : Int)
    (pn pr : Int) (v w : String) :
    (st.remainingRequests = some pn →
      headersGet r.headers "x-ratelimit-remaining" = none →
      (handleResponse st r now).1.remainingRequests = some pn)
    ∧ (st.nextResetTime = some (JSDate.valid pr) →
      headersGet r.headers "x-ratelimit-reset" = none →
      (handleResponse st r now).1.nextResetTime = some (JSDate.valid pr))
    ∧ (headersGet r.headers "x-ratelimit-remaining" = some v → v ≠ "" →
      parseIntJS v = none →
      (handleResponse st r now).1.remainingRequests = none)
    ∧ (headersGet r.headers "x-ratelimit-reset" = some w → w ≠ "" →
      parseDateJS w = JSDate.invalid →
      (handleResponse st r now).1.nextResetTime = some JSDate.invalid) := by
  refine ⟨?_, ?_, ?_, ?_⟩
  · intro hpn habs
    have hrem : parseIntJS (jsOr none (jsOr (some (jsNumToString (some pn))) "30")) = some pn := by
      simp only [jsOr]
      rw [show jsNumToString (some pn) = intToString pn from rfl,
        if_neg (intToString_ne_empty pn)]
      exact parseIntJS_intToString pn
    cases hres : resetChain (headersGet r.headers "x-ratelimit-reset") st.nextResetTime now with
    | error e => simp [handleResponse, hres, habs, hpn, hrem]
    | ok d => simp [handleResponse, hres, habs, hpn, hrem]
  · intro hpr habs
    have hres : resetChain (headersGet r.headers "x-ratelimit-reset") st.nextResetTime now
        = Except.ok (JSDate.valid pr) := by
      rw [habs, hpr]
      simp only [resetChain, resetFallback]
      rw [parseDateJS_dateToISO]
    simp [handleResponse, hres]
  · intro hv hne hnan
    have hrem : parseIntJS (jsOr (some v) (jsOr (some (jsNumToString st.remainingRequests)) "30"))
        = none := by
      simp only [jsOr]
      rw [if_neg hne]
      exact hnan
    cases hres : resetChain (headersGet r.headers "x-ratelimit-reset") st.nextResetTime now with
    | error e => simp [handleResponse, hres, hv, hrem]
    | ok d => simp [handleResponse, hres, hv, hrem]
  · intro hw hne hinv
    have hres : resetChain (headersGet r.headers "x-ratelimit-reset") st.nextResetTime now
        = Except.ok JSDate.invalid := by
      rw [hw]
      simp only [resetChain]
      rw [if_neg hne, hinv]
    simp [handleResponse, hres]

/-- C4 witness: absent headers retain the previous state (7 remaining,
reset at 1000), while malformed headers produce `NaN` and an invalid
date. -/
theorem C4_handleResponse_header_retention_witness :
    (handleResponse exState exNoHeaders 0).1.remainingRequests = some 7
    ∧ (handleResponse exState exNoHeaders 0).1.nextResetTime = some (JSDate.valid 1000)
    ∧ (handleResponse exState exBadHeaders 0).1.remainingRequests = none
    ∧ (handleResponse exState exBadHeaders 0).1.nextResetTime = some JSDate.invalid :=
  ⟨(C4_handleResponse_header_retention exState exNoHeaders 0 7 1000 "" "").1
      (by decide) (by decide),
   (C4_handleResponse_header_retention exState exNoHeaders 0 7 1000 "" "").2.1
      (by decide) (by decide),
   (C4_handleResponse_header_retention exState exBadHeaders 0 7 1000 "oops" "garbage").2.2.1
      (by decide) (by decide) (by decide),
   (C4_handleResponse_header_retention exState exBadHeaders 0 7 1000 "oops" "garbage").2.2.2
      (by decide) (by decide) (by decide)⟩

/-- C4 counterexample: with previous state (7 remaining, valid reset at
1000), a response whose rate-limit headers are present but unparseable does
not leave the last-known state in place — `remainingRequests` becomes `NaN`
and `nextResetTime` becomes an invalid date. -/
theorem C4_counterexample_malformedHeaders :
    (handleResponse exState exBadHeaders 0).1.remainingRequests = none
    ∧ (handleResponse exState exBadHeaders 0).1.remainingRequests ≠ exState.remainingRequests
    ∧ (handleResponse exState exBadHeaders 0).1.nextResetTime = some JSDate.invalid
    ∧ (handleResponse exState exBadHeaders 0).1.nextResetTime ≠ exState.nextResetTime :=
  ⟨by decide, by decide, by decide, by decide⟩

/-- C10: `_handleResponse` assigns the rate-limit fields from the response
headers before the ok/success checks run — the resulting state is identical
to the state a fully successful response with the same headers would
produce, and in particular a transport-failed call with a parseable
remaining header still updates `remainingRequests` while its result is the
thrown error. -/
theorem C10_handleResponse_updates_before_checks (st : ApiState) (r : JsResponse)
    (now : Int) (v : String) (n : Int) :
    (handleResponse st r now).1 = (handleResponse st { r with ok := true, success := true } now).1
    ∧ (r.ok = false → headersGet r.headers "x-ratelimit-remaining" = some v → v ≠ "" →
        parseIntJS v = some n →
        (handleResponse st r now).1.remainingRequests = some n
        ∧ ∃ e, (handleResponse st r now).2 = Except.error e) := by
  constructor
  · cases hres : resetChain (headersGet r.headers "x-ratelimit-reset") st.nextResetTime now with
    | error e => simp [handleResponse, hres]
    | ok d => simp [handleResponse, hres]
  · intro hok hv hne hn
    have hrem : parseIntJS (jsOr (some v) (jsOr (some (jsNumToString st.remainingRequests)) "30"))
        = some n := by
      simp only [jsOr]
      rw [if_neg hne]
      exact hn
    cases hres : resetChain (headersGet r.headers "x-ratelimit-reset") st.nextResetTime now with
    | error e =>
      constructor
      · simp [handleResponse, hres, hv, hrem]
      · exact ⟨e, by simp [handleResponse, hres]⟩
    | ok d =>
      constructor
      · simp [handleResponse, hres, hv, hrem]
      · exact ⟨"HTTP error (Is Habitica API down?); status: " ++ intToString (Int.ofNat r.status),
          by simp [handleResponse, hres, hok]⟩

/-- C10 witness: a transport-failed response with remaining header "12"
leaves the same state as its successful twin, sets `remainingRequests` to
12, and its result is an error. -/
theorem C10_handleResponse_updates_before_checks_witness :
    (handleResponse exState exFailResponse 0).1
      = (handleResponse exState { exFailResponse with ok := true, success := true } 0).1
    ∧ (handleResponse exState exFailResponse 0).1.remainingRequests = some 12
    ∧ ∃ e, (handleResponse exState exFailResponse 0).2 = Except.error e :=
  ⟨(C10_handleResponse_updates_before_checks exState exFailResponse 0 "12" 12).1,
   ((C10_handleResponse_updates_before_checks exState exFailResponse 0 "12" 12).2
      (by decide) (by decide) (by decide) (by decide)).1,
   ((C10_handleResponse_updates_before_checks exState exFailResponse 0 "12" 12).2
      (by decide) (by decide) (by decide) (by decide)).2⟩

/-- C7: a response with a non-success HTTP status or `success = false` makes
the single shared fetch terminate in an error — the gate hands the response
to `_handleResponse` exactly once and never retries — and the orchestrator,
which awaits the fetch before its write loop, then performs no storage
write for any category. -/
theorem C7_fetch_failure_no_writes (st : ApiState) (r : JsResponse) (now : Int)
    (settings : HabiticaTasksSettings) (h : r.ok = false ∨ r.success = false) :
    (∃ e, syncAllWrites st r now settings = Except.error e)
    ∧ ∀ ws, syncAllWrites st r now settings ≠ Except.ok ws := by
  have herr : ∃ e, (handleResponse st r now).2 = Except.error e := by
    cases hres : resetChain (headersGet r.headers "x-ratelimit-reset") st.nextResetTime now with
    | error e => exact ⟨e, by simp [handleResponse, hres]⟩
    | ok d =>
      by_cases hok : r.ok = false
      · exact ⟨"HTTP error (Is Habitica API down?); status: " ++ intToString (Int.ofNat r.status),
          by simp [handleResponse, hres, hok]⟩
      · rcases h with h | hsucc
        · exact absurd h hok
        · exact ⟨"Habitica API error (Was there a Habitica API update?)",
            by simp [handleResponse, hres, hok, hsucc]⟩
  obtain ⟨e, he⟩ := herr
  constructor
  · exact ⟨e, by simp [syncAllWrites, he]⟩
  · intro ws hws
    rw [syncAllWrites] at hws
    rw [he] at hws
    exact absurd hws (by simp)

/-- C7 witness: the HTTP-500 response produces an error and no write list. -/
theorem C7_fetch_failure_no_writes_witness :
    (∃ e, syncAllWrites exState exFailResponse 0 exSettings = Except.error e)
    ∧ ∀ ws, syncAllWrites exState exFailResponse 0 exSettings ≠ Except.ok ws :=
  C7_fetch_failure_no_writes exState exFailResponse 0 exSettings (Or.inl (by decide))

theorem step_invoke_pos (s : ApiState) (buffer now n : Int)
    (hrem : s.remainingRequests = some n) (hn : 0 < n) :
    callWhenRateLimitAllowsStep s buffer now = GateAction.invokeNow := by
  simp [callWhenRateLimitAllowsStep, hrem, hn]

/-- C3: the gate invokes immediately while `remainingRequests > 0`; with the
quota exhausted and a known future reset it arms a timer for exactly
`reset + buffer` and, when the timer fires, re-enters the quota check (the
`reenterAt` action feeds the same step function, not a bare call), so that
with unchanged state the request is awaited exactly at `reset + buffer` and
never before; with no known reset instant it invokes immediately. -/
theorem C3_gate_timing (s : ApiState) (buffer now r n : Int) (fuel : Nat) :
    (s.remainingRequests = some n → 0 < n → 1 ≤ fuel →
      gateInvokeTime s buffer fuel now = some now)
    ∧ (s.remainingRequests = some 0 → s.nextResetTime = some (JSDate.valid r) → now < r →
      0 ≤ buffer → 2 ≤ fuel →
      callWhenRateLimitAllowsStep s buffer now = GateAction.reenterAt (r + buffer)
      ∧ gateInvokeTime s buffer fuel now = some (r + buffer))
    ∧ (s.remainingRequests = some 0 → s.nextResetTime = none → 1 ≤ fuel →
      gateInvokeTime s buffer fuel now = some now) := by
  refine ⟨?_, ?_, ?_⟩
  · intro hrem hn hfuel
    obtain ⟨f, rfl⟩ : ∃ f, fuel = f + 1 := ⟨fuel - 1, by omega⟩
    simp [gateInvokeTime, step_invoke_pos s buffer now n hrem hn]
  · intro hrem hreset hfut hbuf hfuel
    have hstep1 : callWhenRateLimitAllowsStep s buffer now = GateAction.reenterAt (r + buffer) := by
      simp [callWhenRateLimitAllowsStep, hrem, hreset, hfut]
    have hstep2 : callWhenRateLimitAllowsStep s buffer (r + buffer) = GateAction.invokeNow := by
      simp [callWhenRateLimitAllowsStep, hrem, hreset]
      omega
    refine ⟨hstep1, ?_⟩
    obtain ⟨f, rfl⟩ : ∃ f, fuel = f + 2 := ⟨fuel - 2, by omega⟩
    simp [gateInvokeTime, hstep1, hstep2]
  · intro hrem hnone hfuel
    obtain ⟨f, rfl⟩ : ∃ f, fuel = f + 1 := ⟨fuel - 1, by omega⟩
    simp [gateInvokeTime, callWhenRateLimitAllowsStep, hrem, hnone]

/-- C3 witness: with 7 remaining the gate invokes at once; with the quota
exhausted and reset at 100 (buffer 10) it defers to exactly 110 and invokes
there after re-entering the check; with no reset known it invokes at
once. -/
theorem C3_gate_timing_witness :
    gateInvokeTime exState 5 1 42 = some 42
    ∧ callWhenRateLimitAllowsStep exExhausted 10 0 = GateAction.reenterAt 110
    ∧ gateInvokeTime exExhausted 10 2 0 = some 110
    ∧ gateInvokeTime exFresh 10 1 0 = some 0 :=
  ⟨(C3_gate_timing exState 5 42 0 7 1).1 (by decide) (by decide) (by decide),
   ((C3_gate_timing exExhausted 10 0 100 0 2).2.1 (by decide) (by decide) (by decide)
      (by decide) (by decide)).1,
   ((C3_gate_timing exExhausted 10 0 100 0 2).2.1 (by decide) (by decide) (by decide)
      (by decide) (by decide)).2,
   (C3_gate_timing exFresh 10 0 0 0 1).2.2 (by decide) (by decide) (by decide)⟩

/-- C2: in `retrieveTasks` the argument handed to the gate is the value of
`fetch(url, …)`, so the network request starts when `retrieveTasks` is
called — at time 0 in this run — while the gate, whose quota is exhausted
with reset at 100 and buffer 10, only awaits it at time 110: the deferred
call is an already-in-flight request, contradicting the claim that deferral
never leaks one. The gate's own doc comment still describes the parameter
as "the function to call", matching the claim, not the code. -/
theorem C2_eager_fetch_evidence :
    retrieveTasksEvents exExhausted 10 0 2
      = [FetchEv.fetchStarted 0, FetchEv.gateAwaited 110]
    ∧ (0 : Int) < 110 :=
  ⟨by decide, by decide⟩

/-- C1: `performWhileUnsubscribed` aliases the live listener set instead of
snapshotting it — with listener 7 registered for `(taskUpdated, noteSync)`
and an awaitable that changes nothing, the unsubscribe loop empties the
aliased set, the resubscribe loop then iterates that same empty set, and the
call leaves the registration empty: the listener is not re-registered and an
event emitted after the call fires nothing, contradicting the documented
"then resubscribe" behaviour. -/
theorem C1_listener_lost_evidence :
    exHub ApiEvent.taskUpdated SubscriberID.noteSync = [7]
    ∧ performWhileUnsubscribed exHub ApiEvent.taskUpdated SubscriberID.noteSync id
        ApiEvent.taskUpdated SubscriberID.noteSync = []
    ∧ firedListeners
        (performWhileUnsubscribed exHub ApiEvent.taskUpdated SubscriberID.noteSync id)
        ApiEvent.taskUpdated = [] :=
  ⟨rfl, by decide, by decide⟩
